import Mathlib

/-!
Verification of the media timing and caption-layout engine of the
video-translation repository.  The Python sources (`app.py`,
`multi_video.py`, `multi_audio.py`, `booenwellness.py`,
`translate_srt.py`) are shallowly embedded: durations are exact
rationals, fallible external calls (clip loading, audio opening,
translation, reshaping) are explicit `Bool`/`Option` parameters, and
each entry point's pipeline becomes a pure Lean function.
-/

/-- A character Python's `str.split()` (no argument) treats as a
separator: ASCII whitespace. -/
def isPySpace (c : Char) : Bool :=
  c = ' ' || c = '\t' || c = '\n' || c = '\r' || c = '\x0b' || c = '\x0c'

/-- Helper for `splitWords`: walk the characters, accumulating the
current word (reversed); a separator closes the pending word, and
adjacent separators produce nothing. -/
def splitWordsAux : List Char → List Char → List String
  | [], acc => if acc.isEmpty then [] else [String.mk acc.reverse]
  | c :: cs, acc =>
    if isPySpace c then
      if acc.isEmpty then splitWordsAux cs []
      else String.mk acc.reverse :: splitWordsAux cs []
    else splitWordsAux cs (c :: acc)

/-- Python `sentence.split()`: split on runs of whitespace, dropping
empty pieces. -/
def splitWords (s : String) : List String := splitWordsAux s.data []

/-- Python `word.upper()` (ASCII case mapping). -/
def pyUpper (s : String) : String := String.mk (s.data.map Char.toUpper)

/-- One word-level caption event: the displayed text, the start time of
its display interval and the interval's length (seconds, exact). -/
structure WordEvent where
  text : String
  start : ℚ
  duration : ℚ
deriving DecidableEq, Repr

/-- The events form a gap-free chain beginning at time `t`: each event
starts where the cursor stands and advances it by its duration. -/
def contiguousFrom (t : ℚ) : List WordEvent → Prop
  | [] => True
  | e :: es => e.start = t ∧ contiguousFrom (t + e.duration) es

/-- The inner word loop of `create_cinematic_video`: one event per word
(text upper-cased, fixed duration `dpw`), cursor advanced after each.
Returns the events and the final cursor. -/
def emitWords (dpw : ℚ) (t : ℚ) : List String → List WordEvent × ℚ
  | [] => ([], t)
  | w :: ws =>
    let rest := emitWords dpw (t + dpw) ws
    (⟨pyUpper w, t, dpw⟩ :: rest.1, rest.2)

/-- The sentence loop of `create_cinematic_video` (`app.py` lines
212-224, identical in `multi_video.py` and `multi_audio.py`): sentences
without words are skipped (`if not words: continue`); otherwise each of
the sentence's words gets `duration_per_sentence / word_count`. -/
def emitSentences (dps : ℚ) (t : ℚ) : List String → List WordEvent
  | [] => []
  | s :: rest =>
    let ws := splitWords s
    if ws.isEmpty then emitSentences dps t rest
    else
      let r := emitWords (dps / ws.length) t ws
      r.1 ++ emitSentences dps r.2 rest

/-- The caption timeline of `app.py`/`multi_video.py`:
`duration_per_sentence = D / len(captions_list)` — computed from the
TOTAL sentence count, before any empty sentence is skipped.  An empty
caption list makes the Python division raise `ZeroDivisionError`,
modelled as `none`. -/
def buildWordEvents (captions : List String) (D : ℚ) : Option (List WordEvent) :=
  if captions.length = 0 then none
  else some (emitSentences (D / captions.length) 0 captions)

/-- The caption timeline of `multi_audio.py` lines 196-212, which guards
the division with `if len(captions_list) > 0` and otherwise leaves the
caption layer empty. -/
def buildWordEventsGuarded (captions : List String) (D : ℚ) : List WordEvent :=
  if 0 < captions.length then emitSentences (D / captions.length) 0 captions
  else []

/-- Sentences that survive `if not words: continue`. -/
def nonemptySentences (captions : List String) : List String :=
  captions.filter (fun s => !(splitWords s).isEmpty)

-- ------------------------------------------------------------------
-- Lemmas about the word/sentence loops
-- ------------------------------------------------------------------

lemma emitWords_snd (dpw : ℚ) (ws : List String) :
    ∀ t : ℚ, (emitWords dpw t ws).2 = t + dpw * ws.length := by
  induction ws with
  | nil => intro t; simp [emitWords]
  | cons w ws ih =>
    intro t
    simp [emitWords, ih (t + dpw)]
    ring

lemma emitWords_durations (dpw : ℚ) (ws : List String) :
    ∀ t : ℚ, ∀ e ∈ (emitWords dpw t ws).1, e.duration = dpw := by
  induction ws with
  | nil => intro t e he; simp [emitWords] at he
  | cons w ws ih =>
    intro t e he
    simp only [emitWords, List.mem_cons] at he
    rcases he with he | he
    · simp [he]
    · exact ih (t + dpw) e he

lemma emitWords_durations_sum (dpw : ℚ) (ws : List String) :
    ∀ t : ℚ, (((emitWords dpw t ws).1.map WordEvent.duration).sum) = dpw * ws.length := by
  induction ws with
  | nil => intro t; simp [emitWords]
  | cons w ws ih =>
    intro t
    simp [emitWords, ih (t + dpw)]
    ring

lemma emitWords_texts (dpw : ℚ) (ws : List String) :
    ∀ t : ℚ, (emitWords dpw t ws).1.map WordEvent.text = ws.map pyUpper := by
  induction ws with
  | nil => intro t; simp [emitWords]
  | cons w ws ih => intro t; simp [emitWords, ih (t + dpw)]

lemma emitWords_contiguous (dpw : ℚ) (ws : List String) :
    ∀ t : ℚ, contiguousFrom t (emitWords dpw t ws).1 := by
  induction ws with
  | nil => intro t; simp [emitWords, contiguousFrom]
  | cons w ws ih =>
    intro t
    exact ⟨rfl, ih (t + dpw)⟩

lemma contiguousFrom_append (l₁ l₂ : List WordEvent) :
    ∀ t : ℚ, contiguousFrom t l₁ →
      contiguousFrom (t + (l₁.map WordEvent.duration).sum) l₂ →
      contiguousFrom t (l₁ ++ l₂) := by
  induction l₁ with
  | nil => intro t _ h2; simpa using h2
  | cons e es ih =>
    intro t h1 h2
    refine ⟨h1.1, ih (t + e.duration) h1.2 ?_⟩
    have : t + e.duration + (es.map WordEvent.duration).sum
        = t + ((e :: es).map WordEvent.duration).sum := by
      simp; ring
    rw [this]
    exact h2

lemma emitSentences_contiguous (dps : ℚ) (captions : List String) :
    ∀ t : ℚ, contiguousFrom t (emitSentences dps t captions) := by
  induction captions with
  | nil => intro t; simp [emitSentences, contiguousFrom]
  | cons s rest ih =>
    intro t
    by_cases h : (splitWords s).isEmpty
    · simpa [emitSentences, h] using ih t
    · simp only [emitSentences, h, Bool.false_eq_true, if_false]
      apply contiguousFrom_append
      · exact emitWords_contiguous _ _ t
      · rw [emitWords_durations_sum, emitWords_snd]
        exact ih _

lemma emitSentences_durations_sum (dps : ℚ) (captions : List String) :
    ∀ t : ℚ, ((emitSentences dps t captions).map WordEvent.duration).sum
      = dps * (nonemptySentences captions).length := by
  induction captions with
  | nil => intro t; simp [emitSentences, nonemptySentences]
  | cons s rest ih =>
    intro t
    by_cases h : (splitWords s).isEmpty
    · simp [emitSentences, h, nonemptySentences, List.filter_cons, ih t]
    · have hn : ((splitWords s).length : ℚ) ≠ 0 := by
        have hpos : 0 < (splitWords s).length := by
          apply List.length_pos.mpr
          intro hnil; rw [hnil] at h; simp at h
        exact_mod_cast hpos.ne'
      simp only [emitSentences, h, Bool.false_eq_true, if_false, List.map_append,
        List.sum_append, emitWords_durations_sum, ih]
      rw [div_mul_cancel₀ _ hn]
      simp [nonemptySentences, List.filter_cons, h]
      ring

lemma emitSentences_texts (dps : ℚ) (captions : List String) :
    ∀ t : ℚ, (emitSentences dps t captions).map WordEvent.text
      = (captions.flatMap splitWords).map pyUpper := by
  induction captions with
  | nil => intro t; simp [emitSentences]
  | cons s rest ih =>
    intro t
    by_cases h : (splitWords s).isEmpty
    · have hnil : splitWords s = [] := by
        cases hsw : splitWords s with
        | nil => rfl
        | cons a l => rw [hsw] at h; simp at h
      simp [emitSentences, h, hnil, ih t]
    · simp [emitSentences, h, emitWords_texts, ih]

lemma emitSentences_pos (dps : ℚ) (hdps : 0 < dps) (captions : List String) :
    ∀ t : ℚ, ∀ e ∈ emitSentences dps t captions, 0 < e.duration := by
  induction captions with
  | nil => intro t e he; simp [emitSentences] at he
  | cons s rest ih =>
    intro t e he
    by_cases h : (splitWords s).isEmpty
    · rw [emitSentences, if_pos h] at he
      exact ih t e he
    · rw [emitSentences, if_neg h] at he
      rcases List.mem_append.mp he with hm | hm
      · have hdur := emitWords_durations _ (splitWords s) t e hm
        have hlen : (0 : ℚ) < (splitWords s).length := by
          have : splitWords s ≠ [] := by
            intro hnil; rw [hnil] at h; simp at h
          exact_mod_cast List.length_pos.mpr this
        rw [hdur]
        exact div_pos hdps hlen
      · exact ih _ e hm

-- ------------------------------------------------------------------
-- C1 / C2 theorems
-- ------------------------------------------------------------------

/-- C1: for every total duration `D > 0` and every non-empty list of
caption sentences each containing at least one word, the Caption
Timeline Builder emits one `WordEvent` per word (upper-cased, in
order), the events are contiguous and gap-free starting at 0 with
positive durations (hence ordered and non-overlapping), and the
durations sum to exactly `D`, so the events cover `[0, D]`. -/
theorem caption_timeline_covers (captions : List String) (D : ℚ)
    (hD : 0 < D) (hne : captions ≠ [])
    (hw : ∀ s ∈ captions, splitWords s ≠ []) :
    ∃ evs, buildWordEvents captions D = some evs ∧
      contiguousFrom 0 evs ∧
      (evs.map WordEvent.duration).sum = D ∧
      (∀ e ∈ evs, 0 < e.duration) ∧
      evs.map WordEvent.text = (captions.flatMap splitWords).map pyUpper := by
  have hlen : captions.length ≠ 0 := fun h => hne (List.length_eq_zero.mp h)
  have hlenQ : (0 : ℚ) < captions.length := by
    exact_mod_cast Nat.pos_of_ne_zero hlen
  refine ⟨emitSentences (D / captions.length) 0 captions, ?_, ?_, ?_, ?_, ?_⟩
  · simp [buildWordEvents, hlen]
  · exact emitSentences_contiguous _ _ 0
  · rw [emitSentences_durations_sum]
    have hfull : nonemptySentences captions = captions := by
      apply List.filter_eq_self.mpr
      intro s hs
      have := hw s hs
      cases hsw : splitWords s with
      | nil => exact absurd hsw this
      | cons a l => simp [hsw]
    rw [hfull, div_mul_cancel₀ _ hlenQ.ne.symm]
  · exact emitSentences_pos _ (div_pos hD hlenQ) _ 0
  · exact emitSentences_texts _ _ 0

/-- Witness for C1 at the spec's own example: sentences `["A B", "C"]`
with `D = 3`. -/
theorem caption_timeline_covers_witness :
    ∃ evs, buildWordEvents ["A B", "C"] 3 = some evs ∧
      contiguousFrom 0 evs ∧
      (evs.map WordEvent.duration).sum = 3 ∧
      (∀ e ∈ evs, 0 < e.duration) ∧
      evs.map WordEvent.text
        = ((["A B", "C"] : List String).flatMap splitWords).map pyUpper :=
  caption_timeline_covers ["A B", "C"] 3 (by norm_num) (by decide) (by decide)

/-- C2 counterexample: the builder's output on `["a", ""]` (one empty
sentence among non-empty ones) differs from its output on the filtered
list `["a"]`, because `duration_per_sentence` divides by the TOTAL
sentence count. -/
theorem caption_timeline_not_filtered :
    buildWordEvents ["a", ""] 2 ≠ buildWordEvents ["a"] 2 := by
  have h1 : splitWords "a" = ["a"] := by decide
  have h2 : splitWords "" = [] := by decide
  simp only [buildWordEvents, emitSentences, emitWords, h1, h2, List.length_cons,
    List.length_nil, List.isEmpty_nil, List.isEmpty_cons, List.length_singleton]
  norm_num

/-- C2 amended: `duration_per_sentence` is `D` divided by the TOTAL
sentence count, empty sentences emit no events (so the total covered
duration is `D * k / n` with `k` the non-empty count and `n` the total
count, falling short of `D` whenever an empty sentence is present); an
empty caption list raises in `app.py` (modelled `none`) while
`multi_audio.py`'s guarded variant renders without captions; and when
no sentence has words the event list is empty and the video still
renders without captions. -/
theorem caption_timeline_empty_sentence_policy (captions : List String) (D : ℚ)
    (hne : captions ≠ []) :
    buildWordEvents [] D = none ∧
    buildWordEventsGuarded [] D = [] ∧
    ∃ evs, buildWordEvents captions D = some evs ∧
      contiguousFrom 0 evs ∧
      (evs.map WordEvent.duration).sum
        = D / captions.length * (nonemptySentences captions).length ∧
      ((∀ s ∈ captions, splitWords s = []) → evs = []) := by
  have hlen : captions.length ≠ 0 := fun h => hne (List.length_eq_zero.mp h)
  refine ⟨by simp [buildWordEvents], by simp [buildWordEventsGuarded], ?_⟩
  refine ⟨emitSentences (D / captions.length) 0 captions, ?_, ?_, ?_, ?_⟩
  · simp [buildWordEvents, hlen]
  · exact emitSentences_contiguous _ _ 0
  · exact emitSentences_durations_sum _ _ 0
  · intro hall
    have htexts := emitSentences_texts (D / captions.length) captions 0
    have hbind : captions.flatMap splitWords = [] := by
      apply List.flatMap_eq_nil_iff.mpr
      intro s hs
      exact hall s hs
    rw [hbind] at htexts
    simp only [List.map_nil] at htexts
    exact List.map_eq_nil_iff.mp htexts

/-- Witness for the amended C2 at `captions = [" ", "hi"]`, `D = 4`. -/
theorem caption_timeline_empty_sentence_policy_witness :
    buildWordEvents [] 4 = none ∧
    buildWordEventsGuarded [] 4 = [] ∧
    ∃ evs, buildWordEvents [" ", "hi"] 4 = some evs ∧
      contiguousFrom 0 evs ∧
      (evs.map WordEvent.duration).sum
        = 4 / (([" ", "hi"] : List String).length : ℚ)
            * (nonemptySentences [" ", "hi"]).length ∧
      ((∀ s ∈ ([" ", "hi"] : List String), splitWords s = []) → evs = []) :=
  caption_timeline_empty_sentence_policy [" ", "hi"] 4 (by decide)

-- ------------------------------------------------------------------
-- Duration Reconciler (`app.py` lines 196-203, `multi_video.py`
-- lines 263-269, `multi_audio.py` lines 181-191)
-- ------------------------------------------------------------------

/-- Python `int(x)` on a rational: truncation toward zero. -/
def pyInt (x : ℚ) : ℤ := if 0 ≤ x then ⌊x⌋ else -⌊-x⌋

/-- `loops = int(audio.duration / final_bg.duration) + 1`. -/
def loopsCount (audioDur trackDur : ℚ) : ℤ := pyInt (audioDur / trackDur) + 1

/-- Duration of the background after the conditional looping branch:
`if audio.duration > final_bg.duration: final_bg = concatenate([final_bg] * loops)`. -/
def loopedDuration (trackDur audioDur : ℚ) : ℚ :=
  if audioDur > trackDur then (loopsCount audioDur trackDur : ℚ) * trackDur
  else trackDur

/-- `clip.subclip(0, tEnd)`: the cut succeeds (duration becomes `tEnd`)
only when `tEnd` does not exceed the clip's duration; otherwise moviepy
raises, modelled as `none`. -/
def subclipTo (dur tEnd : ℚ) : Option ℚ :=
  if tEnd ≤ dur then some tEnd else none

/-- The whole reconciliation: optional looping, then
`final_bg.subclip(0, audio.duration)`. -/
def reconcile (trackDur audioDur : ℚ) : Option ℚ :=
  subclipTo (loopedDuration trackDur audioDur) audioDur

/-- C3 counterexample: with audio 8s and track 4s, the looping branch is
taken (8 > 4) and the code replicates the track
`int(8/4) + 1 = 3` times, while `ceil(8/4) = 2`: the loop count is not
`ceil(audio.duration / track.duration)` when the audio duration is an
exact multiple of the track duration. -/
theorem loops_not_ceil_at_exact_multiple :
    (4 : ℚ) < 8 ∧ loopsCount 8 4 = 3 ∧ ⌈(8 : ℚ) / 4⌉ = 2 ∧
      loopsCount 8 4 ≠ ⌈(8 : ℚ) / 4⌉ := by
  refine ⟨by norm_num, ?_, by norm_num, ?_⟩ <;>
    norm_num [loopsCount, pyInt]

/-- C3 amended: whenever `audio.duration > track.duration > 0`, the
code's loop count is `floor(audio.duration / track.duration) + 1`
(which agrees with `ceil` exactly when the track duration does not
divide the audio duration), so the looped track's duration before
trimming is `(floor(audio/track) + 1) * track.duration`, which strictly
exceeds — in particular is at least — the audio duration. -/
theorem loops_floor_succ (trackDur audioDur : ℚ)
    (ht : 0 < trackDur) (h : trackDur < audioDur) :
    loopsCount audioDur trackDur = ⌊audioDur / trackDur⌋ + 1 ∧
    loopedDuration trackDur audioDur
      = ((⌊audioDur / trackDur⌋ + 1 : ℤ) : ℚ) * trackDur ∧
    audioDur < loopedDuration trackDur audioDur ∧
    ((¬ ∃ k : ℤ, audioDur = (k : ℚ) * trackDur) →
      loopsCount audioDur trackDur = ⌈audioDur / trackDur⌉) := by
  have hq : 0 ≤ audioDur / trackDur :=
    le_of_lt (div_pos (lt_trans ht h) ht)
  have hfloor : loopsCount audioDur trackDur = ⌊audioDur / trackDur⌋ + 1 := by
    simp [loopsCount, pyInt, hq]
  have hlooped : loopedDuration trackDur audioDur
      = ((⌊audioDur / trackDur⌋ + 1 : ℤ) : ℚ) * trackDur := by
    rw [loopedDuration, if_pos h, hfloor]
  refine ⟨hfloor, hlooped, ?_, ?_⟩
  · rw [hlooped]
    have hlt : audioDur / trackDur < ((⌊audioDur / trackDur⌋ + 1 : ℤ) : ℚ) := by
      push_cast
      exact Int.lt_floor_add_one _
    calc audioDur = audioDur / trackDur * trackDur := by field_simp
    _ < ((⌊audioDur / trackDur⌋ + 1 : ℤ) : ℚ) * trackDur :=
        mul_lt_mul_of_pos_right hlt ht
  · intro hnd
    rw [hfloor]
    have hub : ⌈audioDur / trackDur⌉ ≤ ⌊audioDur / trackDur⌋ + 1 :=
      Int.ceil_le_floor_add_one _
    have hlb : ⌊audioDur / trackDur⌋ < ⌈audioDur / trackDur⌉ := by
      by_contra hc
      push_neg at hc
      have h1 : (⌊audioDur / trackDur⌋ : ℚ) ≤ audioDur / trackDur :=
        Int.floor_le _
      have h2 : audioDur / trackDur ≤ (⌈audioDur / trackDur⌉ : ℚ) :=
        Int.le_ceil _
      have h3 : ((⌈audioDur / trackDur⌉ : ℤ) : ℚ) ≤ ((⌊audioDur / trackDur⌋ : ℤ) : ℚ) := by
        exact_mod_cast hc
      have heq : audioDur / trackDur = ((⌊audioDur / trackDur⌋ : ℤ) : ℚ) :=
        le_antisymm (le_trans h2 h3) h1
      exact hnd ⟨⌊audioDur / trackDur⌋, (div_eq_iff ht.ne').mp heq⟩
    omega

/-- Witness for the amended C3 at the spec's example: audio 10s over a
4s track. -/
theorem loops_floor_succ_witness :
    loopsCount 10 4 = ⌊(10 : ℚ) / 4⌋ + 1 ∧
    loopedDuration 4 10 = ((⌊(10 : ℚ) / 4⌋ + 1 : ℤ) : ℚ) * 4 ∧
    (10 : ℚ) < loopedDuration 4 10 ∧
    ((¬ ∃ k : ℤ, (10 : ℚ) = (k : ℚ) * 4) →
      loopsCount 10 4 = ⌈(10 : ℚ) / 4⌉) :=
  loops_floor_succ 4 10 (by norm_num) (by norm_num)

/-- C4: for every positive background-track duration and positive audio
duration, reconciliation succeeds (the final tail cut is always a cut,
never an extension) and the produced track's duration is exactly the
audio's duration. -/
theorem reconcile_duration_exact (trackDur audioDur : ℚ)
    (ht : 0 < trackDur) (_ha : 0 < audioDur) :
    reconcile trackDur audioDur = some audioDur := by
  unfold reconcile subclipTo
  rw [if_pos]
  by_cases h : trackDur < audioDur
  · exact le_of_lt (loops_floor_succ trackDur audioDur ht h).2.2.1
  · rw [loopedDuration, if_neg h]
    exact le_of_not_lt h

/-- Witness for C4 at track 4s, audio 10s. -/
theorem reconcile_duration_exact_witness : reconcile 4 10 = some 10 :=
  reconcile_duration_exact 4 10 (by norm_num) (by norm_num)

-- ------------------------------------------------------------------
-- Canvas Normalizer (`app.py` lines 166-194, `multi_video.py` lines
-- 233-261, `multi_audio.py` lines 159-179, `booenwellness.py` lines
-- 50-80)
-- ------------------------------------------------------------------

/-- The target canvas of every entry point. -/
def TARGET_WIDTH : ℚ := 1080

/-- The target canvas height. -/
def TARGET_HEIGHT : ℚ := 1920

/-- A decoded clip as the Canvas Normalizer manipulates it: natural
width/height, duration, and whether an embedded audio track is
attached. -/
structure Clip where
  w : ℚ
  h : ℚ
  duration : ℚ
  hasAudio : Bool
deriving DecidableEq, Repr

/-- `clip.without_audio()`. -/
def withoutAudio (c : Clip) : Clip := { c with hasAudio := false }

/-- `if clip.duration > 0.2: clip = clip.subclip(0, clip.duration - 0.15)`. -/
def trimTail (c : Clip) : Clip :=
  if c.duration > 1/5 then { c with duration := c.duration - 3/20 } else c

/-- `clip.resize(factor)`: uniform scaling of both dimensions. -/
def resizeClip (factor : ℚ) (c : Clip) : Clip :=
  { c with w := c.w * factor, h := c.h * factor }

/-- `clip.crop(x_center=clip.w/2, y_center=clip.h/2, width=W, height=H)`:
a center crop to exactly the requested size. -/
def cropTo (W H : ℚ) (c : Clip) : Clip := { c with w := W, h := H }

/-- Per-clip processing of `app.py` (lines 169-181) and
`multi_video.py` (lines 236-245): strip audio, trim the tail, scale by
`max(W/clip.w, H/clip.h) * 1.05`, center-crop to `(W, H)`.  (The
time-varying zoom `resize(lambda t: ...)` is a presentation effect that
changes no modelled attribute and is disabled in `multi_video.py`.) -/
def processClip (W H : ℚ) (c : Clip) : Clip :=
  let c1 := trimTail (withoutAudio c)
  let scale := max (W / c1.w) (H / c1.h)
  cropTo W H (resizeClip (scale * (21/20)) c1)

/-- Per-clip processing of `multi_audio.py` (lines 163-169) and
`booenwellness.py` (lines 54-68): scale by
`max(W/clip.w, H/clip.h) * 1.05` and center-crop only — these variants
neither strip the embedded audio nor trim the tail. -/
def scaleAndCrop (W H : ℚ) (c : Clip) : Clip :=
  let scale := max (W / c.w) (H / c.h)
  cropTo W H (resizeClip (scale * (21/20)) c)

/-- One entry of `video_paths` together with the facts the pipeline
probes about it: whether `os.path.exists` holds, whether
`VideoFileClip` succeeds, and the decoded clip when it does. -/
structure SourceClip where
  onDisk : Bool
  loadsOk : Bool
  clip : Clip
deriving DecidableEq, Repr

/-- The clips surviving the load loop of `app.py` lines 166-187: a
missing path is skipped with a warning, a load failure is skipped with
an error, and each survivor is processed in input order. -/
def processedClips (W H : ℚ) (clips : List SourceClip) : List Clip :=
  (clips.filter (fun c => c.onDisk && c.loadsOk)).map (fun c => processClip W H c.clip)

/-- How one invocation of `create_cinematic_video` ends: `failed` is an
ordinary `return False`, `raised` is an uncaught exception escaping the
function, `rendered` carries the final duration and caption events of
the written file. -/
inductive JobOutcome where
  | failed : JobOutcome
  | raised : JobOutcome
  | rendered : ℚ → List WordEvent → JobOutcome
deriving DecidableEq, Repr

/-- Whether the outcome wrote the output file: only a completed render
reaches `write_videofile`. -/
def wroteOutput : JobOutcome → Bool
  | .rendered _ _ => true
  | _ => false

/-- `app.py`'s `create_cinematic_video` (lines 162-237): load and
normalize clips; `return False` if none survive; open the audio
(`none` = `AudioFileClip` failed, caught, `return False`); reconcile
durations inside the same `try`; then build the caption timeline, whose
division by `len(captions_list)` is NOT guarded — an empty caption list
raises out of the function. -/
def createCinematicVideo (W H : ℚ) (clips : List SourceClip)
    (audioDur : Option ℚ) (captions : List String) : JobOutcome :=
  let processed := processedClips W H clips
  if processed.isEmpty then .failed
  else
    match audioDur with
    | none => .failed
    | some a =>
      match reconcile ((processed.map Clip.duration).sum) a with
      | none => .failed
      | some finalDur =>
        match buildWordEvents captions finalDur with
        | none => .raised
        | some evs => .rendered finalDur evs

/-- C5: when no background clip is usable (each path missing or failing
to load), the job returns the ordinary failure value — not an
exception — and never reaches `write_videofile`, so no output file is
produced and sibling jobs can continue. -/
theorem job_no_usable_clips (W H : ℚ) (clips : List SourceClip)
    (audioDur : Option ℚ) (captions : List String)
    (h : ∀ c ∈ clips, c.onDisk = false ∨ c.loadsOk = false) :
    createCinematicVideo W H clips audioDur captions = .failed ∧
    wroteOutput (createCinematicVideo W H clips audioDur captions) = false := by
  have hfilter : clips.filter (fun c => c.onDisk && c.loadsOk) = [] := by
    apply List.filter_eq_nil_iff.mpr
    intro c hc
    rcases h c hc with h1 | h1 <;> simp [h1]
  have hempty : processedClips W H clips = [] := by
    simp [processedClips, hfilter]
  refine ⟨?_, ?_⟩ <;> simp [createCinematicVideo, hempty, wroteOutput]

/-- Witness for C5: one missing path and one unreadable file. -/
theorem job_no_usable_clips_witness :
    createCinematicVideo 1080 1920
        [⟨false, true, ⟨640, 360, 1, true⟩⟩, ⟨true, false, ⟨640, 360, 1, true⟩⟩]
        (some 10) ["hello"] = .failed ∧
    wroteOutput (createCinematicVideo 1080 1920
        [⟨false, true, ⟨640, 360, 1, true⟩⟩, ⟨true, false, ⟨640, 360, 1, true⟩⟩]
        (some 10) ["hello"]) = false :=
  job_no_usable_clips 1080 1920 _ (some 10) ["hello"] (by decide)

/-- C7 counterexample: `multi_audio.py`'s clip loop (lines 163-169) —
one of the claim's cited implementations — neither strips the embedded
audio nor trims the tail: a loaded 1-second clip with audio keeps both,
contradicting "audio is stripped and 0.15s is trimmed when duration
exceeds 0.2s". -/
theorem canvas_normalizer_multi_audio_keeps_audio :
    ¬ ((scaleAndCrop 1080 1920 ⟨640, 360, 1, true⟩).hasAudio = false ∧
       (scaleAndCrop 1080 1920 ⟨640, 360, 1, true⟩).duration = 1 - 3/20) := by
  simp [scaleAndCrop, resizeClip, cropTo]

/-- C7 amended: in `app.py` and `multi_video.py` each loaded clip is
stripped of audio and loses exactly 0.15s of tail when its duration
exceeds 0.2s (keeping its full duration otherwise), is scaled uniformly
by `max(W/w, H/h) * 1.05` — which makes both scaled dimensions at least
`W` resp. `H`, so the center crop is well-defined — and is cropped to
exactly `(W, H)`; the `multi_audio.py`/`booenwellness.py` variant
applies the same scale and crop but leaves audio and duration
untouched. -/
theorem canvas_normalizer_per_clip (W H : ℚ) (c : Clip)
    (hw : 0 < c.w) (hh : 0 < c.h) (hW : 0 < W) (hH : 0 < H) :
    (processClip W H c).hasAudio = false ∧
    (processClip W H c).duration
      = (if c.duration > 1/5 then c.duration - 3/20 else c.duration) ∧
    (processClip W H c).w = W ∧ (processClip W H c).h = H ∧
    W ≤ (resizeClip (max (W / c.w) (H / c.h) * (21/20)) c).w ∧
    H ≤ (resizeClip (max (W / c.w) (H / c.h) * (21/20)) c).h ∧
    (scaleAndCrop W H c).hasAudio = c.hasAudio ∧
    (scaleAndCrop W H c).duration = c.duration ∧
    (scaleAndCrop W H c).w = W ∧ (scaleAndCrop W H c).h = H := by
  have hcover : ∀ x y : ℚ, 0 < x → 0 < y →
      y ≤ x * (max (y / x) (H / c.h) * (21/20)) := by
    intro x y hx hy
    have h1 : y / x ≤ max (y / x) (H / c.h) := le_max_left _ _
    have h2 : x * (y / x * (21/20)) = y * (21/20) := by field_simp; ring
    have h3 : x * (y / x * (21/20)) ≤ x * (max (y / x) (H / c.h) * (21/20)) := by
      apply mul_le_mul_of_nonneg_left _ (le_of_lt hx)
      exact mul_le_mul_of_nonneg_right h1 (by norm_num)
    have h4 : y ≤ y * (21/20) := by nlinarith
    linarith [h2 ▸ h3]
  constructor
  · simp only [processClip, cropTo, resizeClip, trimTail, withoutAudio]
    split_ifs <;> rfl
  refine ⟨?_, ?_, ?_, ?_, ?_, ?_, ?_, ?_, ?_⟩
  · simp only [processClip, cropTo, resizeClip, trimTail, withoutAudio, gt_iff_lt]
    split_ifs <;> rfl
  · simp [processClip, cropTo]
  · simp [processClip, cropTo]
  · simpa [resizeClip] using hcover c.w W hw hW
  · have h1 : H / c.h ≤ max (W / c.w) (H / c.h) := le_max_right _ _
    have h2 : c.h * (H / c.h * (21/20)) = H * (21/20) := by field_simp; ring
    have h3 : c.h * (H / c.h * (21/20)) ≤ c.h * (max (W / c.w) (H / c.h) * (21/20)) := by
      apply mul_le_mul_of_nonneg_left _ (le_of_lt hh)
      exact mul_le_mul_of_nonneg_right h1 (by norm_num)
    have h4 : H ≤ H * (21/20) := by nlinarith
    simp only [resizeClip]
    linarith [h2 ▸ h3]
  · simp [scaleAndCrop, cropTo, resizeClip]
  · simp [scaleAndCrop, cropTo, resizeClip]
  · simp [scaleAndCrop, cropTo]
  · simp [scaleAndCrop, cropTo]

/-- Witness for the amended C7 at a 640x360 clip of 1s with audio on
the 1080x1920 canvas. -/
theorem canvas_normalizer_per_clip_witness :
    (processClip 1080 1920 ⟨640, 360, 1, true⟩).hasAudio = false ∧
    (processClip 1080 1920 ⟨640, 360, 1, true⟩).duration
      = (if (1:ℚ) > 1/5 then (1:ℚ) - 3/20 else 1) ∧
    (processClip 1080 1920 ⟨640, 360, 1, true⟩).w = 1080 ∧
    (processClip 1080 1920 ⟨640, 360, 1, true⟩).h = 1920 ∧
    (1080:ℚ) ≤ (resizeClip (max ((1080:ℚ) / 640) ((1920:ℚ) / 360) * (21/20))
        ⟨640, 360, 1, true⟩).w ∧
    (1920:ℚ) ≤ (resizeClip (max ((1080:ℚ) / 640) ((1920:ℚ) / 360) * (21/20))
        ⟨640, 360, 1, true⟩).h ∧
    (scaleAndCrop 1080 1920 ⟨640, 360, 1, true⟩).hasAudio = true ∧
    (scaleAndCrop 1080 1920 ⟨640, 360, 1, true⟩).duration = 1 ∧
    (scaleAndCrop 1080 1920 ⟨640, 360, 1, true⟩).w = 1080 ∧
    (scaleAndCrop 1080 1920 ⟨640, 360, 1, true⟩).h = 1920 :=
  canvas_normalizer_per_clip 1080 1920 ⟨640, 360, 1, true⟩
    (by norm_num) (by norm_num) (by norm_num) (by norm_num)

-- ------------------------------------------------------------------
-- Glyph Renderer font resolution and locale policy
-- (`app.py` lines 121-157, `multi_video.py` lines 170-224,
-- `multi_audio.py` lines 134-155)
-- ------------------------------------------------------------------

/-- The facts the environment offers `create_pil_text_image` during
font resolution: whether the chosen script font file exists on disk,
whether `ImageFont.truetype` succeeds on it, and whether
`ImageFont.truetype("arial.ttf", ...)` succeeds. -/
structure FontProbe where
  scriptFontOnDisk : Bool
  scriptFontLoads : Bool
  arialLoads : Bool
deriving DecidableEq, Repr

/-- Which font ends up being used. -/
inductive ResolvedFont where
  | scriptFont : ResolvedFont
  | systemArial : ResolvedFont
  | builtinDefault : ResolvedFont
deriving DecidableEq, Repr

/-- Font resolution of `app.py` lines 136-145 and `multi_video.py`
lines 200-210: when the script font file exists, `truetype` is tried on
it and any failure falls to `ImageFont.load_default()`; `"arial.ttf"`
is tried only when the file does NOT exist, again with the default as
last resort. -/
def resolveFont (p : FontProbe) : ResolvedFont :=
  if p.scriptFontOnDisk then
    if p.scriptFontLoads then .scriptFont else .builtinDefault
  else
    if p.arialLoads then .systemArial else .builtinDefault

/-- The fallback chain as the spec describes it: script-specific font,
then the generic system font, then the built-in default, every load
failure falling through to the NEXT stage in that order. -/
def resolveFontSpecChain (p : FontProbe) : ResolvedFont :=
  if p.scriptFontOnDisk && p.scriptFontLoads then .scriptFont
  else if p.arialLoads then .systemArial
  else .builtinDefault

/-- Font resolution of `multi_audio.py` lines 139-142: one `truetype`
attempt on the Latin font path with the built-in default on any
failure — no system-font stage at all. -/
def resolveFontMultiAudio (fontLoads : Bool) : ResolvedFont :=
  if fontLoads then .scriptFont else .builtinDefault

/-- C6 counterexample: when the script font file exists but fails to
load while `"arial.ttf"` would load, the code falls directly to the
built-in default bitmap font, whereas the claimed chain would fall
through to the generic system font. -/
theorem font_chain_skips_system_font :
    resolveFont ⟨true, false, true⟩ = .builtinDefault ∧
    resolveFontSpecChain ⟨true, false, true⟩ = .systemArial ∧
    resolveFont ⟨true, false, true⟩ ≠ resolveFontSpecChain ⟨true, false, true⟩ := by
  refine ⟨rfl, rfl, ?_⟩
  decide

/-- C6 amended: font resolution is total (a font is always produced,
never an exception), but the order is: an existing and loadable script
font wins; an existing script font that fails to load falls DIRECTLY to
the built-in default, skipping the generic system font; the system font
is tried only when the script font file is missing, with the default as
last resort; and `multi_audio.py`'s variant never tries the system font
at all. -/
theorem font_resolution_chain (p : FontProbe) :
    (p.scriptFontOnDisk = true → p.scriptFontLoads = true →
        resolveFont p = .scriptFont) ∧
    (p.scriptFontOnDisk = true → p.scriptFontLoads = false →
        resolveFont p = .builtinDefault) ∧
    (p.scriptFontOnDisk = false → p.arialLoads = true →
        resolveFont p = .systemArial) ∧
    (p.scriptFontOnDisk = false → p.arialLoads = false →
        resolveFont p = .builtinDefault) ∧
    (∀ b : Bool, resolveFontMultiAudio b ≠ .systemArial) := by
  obtain ⟨a, b, c⟩ := p
  refine ⟨?_, ?_, ?_, ?_, ?_⟩
  · intro h1 h2; simp only at h1 h2; subst h1; subst h2; rfl
  · intro h1 h2; simp only at h1 h2; subst h1; subst h2; rfl
  · intro h1 h2; simp only at h1 h2; subst h1; subst h2; rfl
  · intro h1 h2; simp only at h1 h2; subst h1; subst h2; rfl
  · intro d; cases d <;> decide

/-- Witness for the amended C6: the three reachable stages at concrete
probes. -/
theorem font_resolution_chain_witness :
    resolveFont ⟨true, true, true⟩ = .scriptFont ∧
    resolveFont ⟨true, false, true⟩ = .builtinDefault ∧
    resolveFont ⟨false, true, true⟩ = .systemArial ∧
    resolveFont ⟨false, false, false⟩ = .builtinDefault ∧
    resolveFontMultiAudio false ≠ .systemArial :=
  ⟨(font_resolution_chain ⟨true, true, true⟩).1 rfl rfl,
   (font_resolution_chain ⟨true, false, true⟩).2.1 rfl rfl,
   (font_resolution_chain ⟨false, true, true⟩).2.2.1 rfl rfl,
   (font_resolution_chain ⟨false, false, false⟩).2.2.2.1 rfl rfl,
   (font_resolution_chain ⟨false, false, false⟩).2.2.2.2 false⟩

/-- The reshaping step of `create_pil_text_image`
(`multi_video.py` lines 176-181, `app.py` lines 126-131): for the
Arabic locale the text goes through `arabic_reshaper.reshape` followed
by `bidi.algorithm.get_display` — modelled as one external function
that may fail, the `try/except: pass` keeping the raw text on
failure — and every other locale passes the text through unchanged. -/
def reshapeForLang (reshape : String → Option String)
    (langCode : String) (text : String) : String :=
  if langCode = "ar" then (reshape text).getD text else text

/-- `scale_factor` of `multi_video.py` lines 192-196: 0.13 by default
(Latin), 0.10 for Arabic, 0.12 for Japanese.  (`app.py` line 133 is the
same table restricted to its locales, which include no Japanese.) -/
def scale_factor (langCode : String) : ℚ :=
  if langCode = "ar" then 1/10
  else if langCode = "ja" then 3/25
  else 13/100

/-- `target_font_size = int(video_w * scale_factor)`
(`multi_video.py` line 198). -/
def target_font_size (videoW : ℚ) (langCode : String) : ℤ :=
  pyInt (videoW * scale_factor langCode)

/-- C8: bidirectional reshaping is applied exactly for the Arabic
locale (all other locales pass the text through unchanged), and the
font size is the locale-dependent fraction of the canvas width: 0.10
for the reshaped right-to-left locale, 0.12 for Japanese, 0.13 for
every other (Latin) locale. -/
theorem glyph_locale_policy (reshape : String → Option String)
    (text r : String) (langCode : String) (W : ℚ)
    (hr : reshape text = some r) :
    (langCode = "ar" → reshapeForLang reshape langCode text = r) ∧
    (langCode ≠ "ar" → reshapeForLang reshape langCode text = text) ∧
    (langCode = "ar" → target_font_size W langCode = pyInt (W * (1/10))) ∧
    (langCode = "ja" → target_font_size W langCode = pyInt (W * (3/25))) ∧
    (langCode ≠ "ar" → langCode ≠ "ja" →
        target_font_size W langCode = pyInt (W * (13/100))) := by
  refine ⟨?_, ?_, ?_, ?_, ?_⟩
  · intro h; subst h; simp [reshapeForLang, hr]
  · intro h; simp [reshapeForLang, h]
  · intro h; subst h; rfl
  · intro h; subst h; rfl
  · intro h1 h2; simp [target_font_size, scale_factor, h1, h2]

/-- Witness for C8 with a reshaper that succeeds, at the Arabic locale
and canvas width 1080. -/
theorem glyph_locale_policy_witness :
    (("ar" : String) = "ar" →
      reshapeForLang (fun _ => some "RESHAPED") "ar" "txt" = "RESHAPED") ∧
    (("ar" : String) ≠ "ar" →
      reshapeForLang (fun _ => some "RESHAPED") "ar" "txt" = "txt") ∧
    (("ar" : String) = "ar" →
      target_font_size 1080 "ar" = pyInt (1080 * (1/10))) ∧
    (("ar" : String) = "ja" →
      target_font_size 1080 "ar" = pyInt (1080 * (3/25))) ∧
    (("ar" : String) ≠ "ar" → ("ar" : String) ≠ "ja" →
      target_font_size 1080 "ar" = pyInt (1080 * (13/100))) :=
  glyph_locale_policy (fun _ => some "RESHAPED") "txt" "RESHAPED" "ar" 1080 rfl

-- ------------------------------------------------------------------
-- Watermark-only entry point (`booenwellness.py` lines 46-118)
-- ------------------------------------------------------------------

/-- The single watermark overlay built at `booenwellness.py` lines
89-94: fixed text, `set_start(0)`, `set_duration(total_duration)`,
`set_position('center')`. -/
structure WatermarkClip where
  text : String
  start : ℚ
  duration : ℚ
  position : String
deriving DecidableEq, Repr

/-- The composed watermark-only video: processed background clips,
canvas, total duration and the watermark layer. -/
structure BooenVideo where
  background : List Clip
  width : ℚ
  height : ℚ
  duration : ℚ
  watermark : WatermarkClip
deriving DecidableEq, Repr

/-- The clips surviving `booenwellness.py`'s load loop (lines 52-71):
any clip whose load raises is skipped; survivors are scaled and
center-cropped (this variant strips no audio and trims no tail). -/
def booenProcessed (clips : List SourceClip) : List Clip :=
  (clips.filter (fun c => c.onDisk && c.loadsOk)).map
    (fun c => scaleAndCrop TARGET_WIDTH TARGET_HEIGHT c.clip)

/-- `booenwellness.py`'s `create_cinematic_video` (lines 46-118): if no
clip survives, print and return with no output file (`none`); otherwise
write to `output_path` the concatenated background composited with a
centered "Booen Wellness" watermark lasting the whole duration.  The
`captions_list` parameter is accepted (lines 84-87 document that the
caption loop was removed) but never read. -/
def booenCreateCinematicVideo (clips : List SourceClip)
    (captionsList : List String) (outputPath : String) :
    Option (String × BooenVideo) :=
  if (booenProcessed clips).isEmpty then none
  else
    some (outputPath,
      ⟨booenProcessed clips, TARGET_WIDTH, TARGET_HEIGHT,
        ((booenProcessed clips).map Clip.duration).sum,
        ⟨"Booen Wellness", 0, ((booenProcessed clips).map Clip.duration).sum,
          "center"⟩⟩)

/-- C9: the watermark-only entry point's output is independent of the
caption list — for the same clips and output path, any two caption
lists compose the same video — and whenever a video is produced it is
written to the requested path with the fixed centered "Booen Wellness"
watermark starting at 0 and lasting the whole duration. -/
theorem booen_output_independent_of_captions (clips : List SourceClip)
    (caps1 caps2 : List String) (outputPath : String) :
    booenCreateCinematicVideo clips caps1 outputPath
      = booenCreateCinematicVideo clips caps2 outputPath ∧
    (booenCreateCinematicVideo clips caps1 outputPath).map
        (fun pv => (pv.1, pv.2.watermark))
      = (booenCreateCinematicVideo clips caps1 outputPath).map
        (fun pv => (outputPath,
          (⟨"Booen Wellness", 0, pv.2.duration, "center"⟩ : WatermarkClip))) := by
  refine ⟨rfl, ?_⟩
  unfold booenCreateCinematicVideo
  split <;> rfl

/-- Witness for C9 at one loadable clip and caption lists
`["a"]` / `["b"]`. -/
theorem booen_output_independent_of_captions_witness :
    booenCreateCinematicVideo [⟨true, true, ⟨640, 360, 1, true⟩⟩] ["a"] "o.mp4"
      = booenCreateCinematicVideo [⟨true, true, ⟨640, 360, 1, true⟩⟩] ["b"] "o.mp4" ∧
    (booenCreateCinematicVideo [⟨true, true, ⟨640, 360, 1, true⟩⟩] ["a"] "o.mp4").map
        (fun pv => (pv.1, pv.2.watermark))
      = (booenCreateCinematicVideo [⟨true, true, ⟨640, 360, 1, true⟩⟩] ["a"] "o.mp4").map
        (fun pv => ("o.mp4",
          (⟨"Booen Wellness", 0, pv.2.duration, "center"⟩ : WatermarkClip))) :=
  booen_output_independent_of_captions [⟨true, true, ⟨640, 360, 1, true⟩⟩]
    ["a"] ["b"] "o.mp4"

-- ------------------------------------------------------------------
-- SRT translator (`translate_srt.py` lines 31-88)
-- ------------------------------------------------------------------

/-- One `pysrt` subtitle entry: index, start and end timestamps (in
milliseconds; Python's `.end` is `finish` here) and the text block. -/
structure SubEntry where
  index : Nat
  start : Nat
  finish : Nat
  text : String
deriving DecidableEq, Repr

/-- Python's `not text.strip()`: true when the text is empty or
whitespace-only. -/
def isBlank (s : String) : Bool := s.data.all isPySpace

/-- The body of the per-subtitle loop of `translate_srt` (lines 58-74):
blank text is skipped untranslated (`continue`); otherwise the
translator is tried, a per-line failure (`none`) printing an error and
keeping the original text; only `sub.text` is ever assigned. -/
def translateSub (translator : String → Option String) (sub : SubEntry) : SubEntry :=
  if isBlank sub.text then sub
  else
    match translator sub.text with
    | some t => { sub with text := t }
    | none => sub

/-- One language pass of `translate_srt`: the freshly reloaded entry
list is walked in order and then saved; the entry sequence itself is
never changed. -/
def translateSrt (translator : String → Option String)
    (subs : List SubEntry) : List SubEntry :=
  subs.map (translateSub translator)

lemma translateSub_preserves (translator : String → Option String) (sub : SubEntry) :
    (translateSub translator sub).index = sub.index ∧
    (translateSub translator sub).start = sub.start ∧
    (translateSub translator sub).finish = sub.finish := by
  unfold translateSub
  split
  · exact ⟨rfl, rfl, rfl⟩
  · split <;> exact ⟨rfl, rfl, rfl⟩

lemma translateSub_blank (translator : String → Option String) (sub : SubEntry)
    (h : isBlank sub.text = true) :
    (translateSub translator sub).text = sub.text := by
  unfold translateSub
  rw [if_pos h]

/-- C10: the SRT translator modifies only the text field: the output has
as many entries as the input, every entry keeps its index and its
start/end timestamps, and an entry whose text is empty or
whitespace-only keeps its original text. -/
theorem translate_srt_frame (translator : String → Option String)
    (subs : List SubEntry) :
    (translateSrt translator subs).length = subs.length ∧
    (translateSrt translator subs).map SubEntry.index = subs.map SubEntry.index ∧
    (translateSrt translator subs).map SubEntry.start = subs.map SubEntry.start ∧
    (translateSrt translator subs).map SubEntry.finish = subs.map SubEntry.finish ∧
    List.Forall₂ (fun a b => isBlank a.text = true → b.text = a.text)
      subs (translateSrt translator subs) := by
  refine ⟨by simp [translateSrt], ?_, ?_, ?_, ?_⟩
  · rw [translateSrt, List.map_map]
    exact List.map_congr_left fun a _ => (translateSub_preserves translator a).1
  · rw [translateSrt, List.map_map]
    exact List.map_congr_left fun a _ => (translateSub_preserves translator a).2.1
  · rw [translateSrt, List.map_map]
    exact List.map_congr_left fun a _ => (translateSub_preserves translator a).2.2
  · rw [translateSrt]
    induction subs with
    | nil => exact List.Forall₂.nil
    | cons s rest ih =>
      exact List.Forall₂.cons (fun h => translateSub_blank translator s h) ih

/-- Witness for C10: a two-entry file (one real line, one blank line)
under a translator that succeeds on everything. -/
theorem translate_srt_frame_witness :
    (translateSrt (fun _ => some "X") [⟨1, 0, 1000, "hi"⟩, ⟨2, 1000, 2000, " "⟩]).length
      = ([⟨1, 0, 1000, "hi"⟩, ⟨2, 1000, 2000, " "⟩] : List SubEntry).length ∧
    (translateSrt (fun _ => some "X")
        [⟨1, 0, 1000, "hi"⟩, ⟨2, 1000, 2000, " "⟩]).map SubEntry.index
      = ([⟨1, 0, 1000, "hi"⟩, ⟨2, 1000, 2000, " "⟩] : List SubEntry).map SubEntry.index ∧
    (translateSrt (fun _ => some "X")
        [⟨1, 0, 1000, "hi"⟩, ⟨2, 1000, 2000, " "⟩]).map SubEntry.start
      = ([⟨1, 0, 1000, "hi"⟩, ⟨2, 1000, 2000, " "⟩] : List SubEntry).map SubEntry.start ∧
    (translateSrt (fun _ => some "X")
        [⟨1, 0, 1000, "hi"⟩, ⟨2, 1000, 2000, " "⟩]).map SubEntry.finish
      = ([⟨1, 0, 1000, "hi"⟩, ⟨2, 1000, 2000, " "⟩] : List SubEntry).map SubEntry.finish ∧
    List.Forall₂ (fun a b => isBlank a.text = true → b.text = a.text)
      ([⟨1, 0, 1000, "hi"⟩, ⟨2, 1000, 2000, " "⟩] : List SubEntry)
      (translateSrt (fun _ => some "X") [⟨1, 0, 1000, "hi"⟩, ⟨2, 1000, 2000, " "⟩]) :=
  translate_srt_frame (fun _ => some "X") [⟨1, 0, 1000, "hi"⟩, ⟨2, 1000, 2000, " "⟩]
